import Mathlib

/-!
# Verification of the deczoo decorator library

Shallow embedding, in Lean 4, of the parts of the `deczoo` repository that the
frozen claims talk about:

* `deczoo/_utils.py` : `check_parens`, the decorator-composition dispatcher;
* `deczoo/_core.py`  : `add_partial`, the earlier revision of the dispatcher;
* `deczoo/decorators.py` : the wrapper catalog (`call_counter`, `catch`,
  `check_args`, `memory_limit`, `retry`, `multi_shape_tracker`).

Python values that may be `None` are embedded as `Option`; Python exceptions
become `Except` results; keyword-argument dictionaries become functions
`String → Option _` (with `functools.partial`'s dict-update merge); mutable
state (call counters, process resource limits) is passed explicitly.
-/

namespace Deczoo

/-! ## The dispatcher (`check_parens` in `_utils.py`, `add_partial` in `_core.py`)

A Python call site hands a callable a list of positional arguments and a
keyword dictionary.  A decorator factory is therefore embedded as a function
`List (Option U) → KW U → β`: the positional tuple (whose entries may be the
Python `None`, embedded as `none`) and the keyword dictionary.  The factory
itself binds its parameters and fills its own declared defaults, exactly as
the Python function object does. -/

/-- Keyword-argument dictionary: maps an argument name to its value, `none`
when the name is absent. -/
def KW (U : Type) : Type := String → Option U

/-- The empty keyword dictionary (no keyword arguments supplied). -/
def emptyKw {U : Type} : KW U := fun _ => none

/-- Python dict update `{**old, **new}`: entries of `new` win. This is the
merge `functools.partial` performs between stored and call-site keywords. -/
def kwUpdate {U : Type} (old new : KW U) : KW U :=
  fun k => match new k with
  | some v => some v
  | none => old k

/-- A `functools.partial(f, *storedArgs, **storedKw)` object: calling it with
further positional arguments appends them after the stored ones, and call-site
keywords update the stored ones. -/
structure PartialObj (U β : Type) where
  f : List (Option U) → KW U → β
  storedArgs : List (Option U)
  storedKw : KW U

/-- Applying a `partial` object: `p(*args, **kw)` runs
`p.f(*p.storedArgs, *args, {**p.storedKw, **kw})`. -/
def PartialObj.call {U β : Type} (p : PartialObj U β) (args : List (Option U)) (kw : KW U) : β :=
  p.f (p.storedArgs ++ args) (kwUpdate p.storedKw kw)

/-- What a dispatched factory returns: either the factory's own result
(target was supplied) or a deferred decorator, a `partial` object awaiting
the target. -/
inductive DispatchResult (U β : Type) where
  | ret : β → DispatchResult U β
  | deferred : PartialObj U β → DispatchResult U β

/-- `check_parens` from `deczoo/_utils.py`.  The inner
`wrapper(func=None, *args, **kwargs)` binds its first positional argument (or
the default `None` when the call supplies no positional argument) to `func`;
if `func is None` it returns `partial(decorator, *args, **kwargs)`, otherwise
it returns `decorator(func, *args, **kwargs)`. -/
def check_parens {U β : Type} (decorator : List (Option U) → KW U → β)
    (args : List (Option U)) (kw : KW U) : DispatchResult U β :=
  match args with
  | [] => .deferred ⟨decorator, [], kw⟩
  | none :: rest => .deferred ⟨decorator, rest, kw⟩
  | some t :: rest => .ret (decorator (some t :: rest) kw)

/-- `add_partial` from `deczoo/_core.py`: the earlier revision of the
dispatcher.  Its `wrapper(func=None, *args, **kwargs)` body is the same
`if func is None: partial(decorator, *args, **kwargs) else decorator(func,
*args, **kwargs)` dispatch (the revisions differ only in type annotations). -/
def add_partial {U β : Type} (decorator : List (Option U) → KW U → β)
    (args : List (Option U)) (kw : KW U) : DispatchResult U β :=
  match args with
  | [] => .deferred ⟨decorator, [], kw⟩
  | none :: rest => .deferred ⟨decorator, rest, kw⟩
  | some t :: rest => .ret (decorator (some t :: rest) kw)

/-- The factory's direct result, when the dispatch returned one. -/
def DispatchResult.result? {U β : Type} : DispatchResult U β → Option β
  | .ret b => some b
  | .deferred _ => none

/-- Applying a dispatch result to a target `t` the way decorator syntax does:
a deferred decorator is called with the single positional argument `t` and no
keywords; a direct result is not a decorator, so there is nothing to apply. -/
def DispatchResult.applyTo {U β : Type} : DispatchResult U β → U → Option β
  | .ret _, _ => none
  | .deferred p, t => some (p.call [some t] emptyKw)

/-! ## `call_counter` (`decorators.py`)

The wrapper increments `wrapper._calls` by one at the start of every
invocation (before the target runs) and the attribute is initialized to
`seed` at decoration time.  The counter is the explicit state here; what the
target does on a given invocation is irrelevant to it. -/

/-- The mutable state `wrapper._calls` attached by `call_counter`. -/
structure CallCounterState where
  calls : Int
  deriving DecidableEq, Repr

/-- Decoration-time initialization of `call_counter`: `wrapper._calls = seed`. -/
def call_counter_init (seed : Int) : CallCounterState := ⟨seed⟩

/-- One invocation of a `call_counter`-wrapped function: `wrapper._calls += 1`
runs first, then the target's own outcome (returned value or raised error,
embedded as `Except E V`) is produced unchanged. -/
def call_counter_invoke {E V : Type} (st : CallCounterState) (target_outcome : Except E V) :
    CallCounterState × Except E V :=
  (⟨st.calls + 1⟩, target_outcome)

/-- The counter state after a sequence of invocations whose target outcomes
were `outcomes`, starting from state `st`. -/
def call_counter_after {E V : Type} (st : CallCounterState) (outcomes : List (Except E V)) :
    CallCounterState :=
  outcomes.foldl (fun s o => (call_counter_invoke s o).1) st

/-! ## `catch` (`decorators.py`)

The wrapper runs the target inside `try/except Exception`; on an exception it
returns `return_on_exception` when that is not `None`, else raises
`raise_on_exception` when that is not `None`, else re-raises the original
error.  The Python `None` sentinel of each option is embedded as `Option`. -/

/-- One invocation of a `catch`-wrapped function, given the target's own
outcome for this call. -/
def catch_invoke {E V : Type} (return_on_exception : Option V) (raise_on_exception : Option E)
    (target_outcome : Except E V) : Except E V :=
  match target_outcome with
  | .ok v => .ok v
  | .error e =>
    match return_on_exception with
    | some v => .ok v
    | none =>
      match raise_on_exception with
      | some e2 => .error e2
      | none => .error e

/-! ## `retry` (`decorators.py`)

Decoration-time validation: `n_tries` must be a positive `int`, `delay` a
non-negative number, `logging_fn` callable.  The wrapper then loops
`while attempt < n_tries`, returning the first successful result and
re-raising the error of attempt `n_tries` when every attempt failed.

The target at fixed call arguments is embedded as `attempts : Nat → Except E V`
giving the outcome of the i-th invocation (0-based); `delay` only sleeps and
is invisible to the result. -/

/-- Errors raised by the catalog factories and wrappers. -/
inductive PyError where
  | typeError (msg : String)
  | valueError (msg : String)
  | keyError (key : String)
  | indexError
  | emptyShapeError (msg : String)
  | memoryError (msg : String)
  deriving DecidableEq, Repr

/-- A Python number as the catalog's validation code sees it: an `int`, a
`float` (carrying only the sign information the checks compare), or a value
of some other type.  Floats are embedded by integers: the validation code
only ever compares them with `0`/`1`. -/
inductive PyNum where
  | int (n : Int)
  | float (n : Int)
  | other
  deriving DecidableEq, Repr

/-- Decoration-time validation of `retry`: `n_tries` must be a positive
`int` (`ValueError` otherwise), `delay` a non-negative `int`/`float`
(`ValueError` otherwise), `logging_fn` callable (`TypeError` otherwise). -/
def retry_validate (n_tries delay : PyNum) (logging_fn_callable : Bool) :
    Except PyError Unit := do
  match n_tries with
  | .int n => if n < 1 then throw (.valueError "`n_tries` should be a positive integer") else pure ()
  | _ => throw (.valueError "`n_tries` should be a positive integer")
  match delay with
  | .int d => if d < 0 then throw (.valueError "`delay` should be a positive number") else pure ()
  | .float d => if d < 0 then throw (.valueError "`delay` should be a positive number") else pure ()
  | .other => throw (.valueError "`delay` should be a positive number")
  if logging_fn_callable then pure () else throw (.typeError "`logging_fn` should be a callable")

/-- The `retry` wrapper's `while attempt < n_tries` loop, entered at a given
`attempt` value.  Returns the wrapper's outcome (`none` embeds the implicit
`return None` of a loop that never runs, impossible after validation since the
loop starts at `attempt = 0` with `n_tries ≥ 1`) together with how many times
the target was invoked from this point on. -/
def retry_run {E V : Type} (attempts : Nat → Except E V) (n_tries : Nat) (attempt : Nat) :
    Option (Except E V) × Nat :=
  if attempt < n_tries then
    match attempts attempt with
    | .ok v => (some (.ok v), 1)
    | .error e =>
      if attempt + 1 = n_tries then (some (.error e), 1)
      else
        let rest := retry_run attempts n_tries (attempt + 1)
        (rest.1, rest.2 + 1)
  else (none, 0)
termination_by n_tries - attempt

/-- A `retry`-wrapped call: the loop starts at `attempt = 0`. -/
def retry_call {E V : Type} (attempts : Nat → Except E V) (n_tries : Nat) :
    Option (Except E V) × Nat :=
  retry_run attempts n_tries 0

/-! ## `check_args` (`decorators.py`)

The wrapper computes `inspect.signature(func).bind(*args, **kwargs).arguments`
— the mapping of the *explicitly supplied* arguments to parameter names
(`bind` does not fill declared defaults) — then walks that mapping in order;
for each bound name with a rule whose predicate rejects the value it raises
`ValueError`, and only afterwards calls the target.  Rules are embedded as an
association list of predicates (Python `**rules` keys are unique; only the
first entry per name can ever be consulted, like a dict). -/

/-- `signature.bind(*args, **kwargs).arguments` for a valid call: positional
arguments are matched to parameter names in declaration order, then the
keyword arguments follow.  (Calls on which `bind` itself raises are not
modelled; the claims quantify over calls that bind.) -/
def bindSupplied {V : Type} (params : List String) (posArgs : List V)
    (kwargs : List (String × V)) : List (String × V) :=
  (params.zip posArgs) ++ kwargs

/-- The wrapper's scan over the bound arguments: the first bound name whose
rule rejects its value, `none` when every consulted rule accepts. -/
def findFailing {V : Type} (rules : List (String × (V → Bool))) :
    List (String × V) → Option String
  | [] => none
  | (k, v) :: rest =>
    match rules.lookup k with
    | some rule => if rule v then findFailing rules rest else some k
    | none => findFailing rules rest

/-- One invocation of a `check_args`-wrapped function on already-bound
arguments: raise `ValueError` naming the first failing argument, or run the
target.  The second component counts target invocations (0 or 1), the
side-effect counter of the spec's test. -/
def check_args_invoke {V W : Type} (rules : List (String × (V → Bool)))
    (bound : List (String × V)) (target : List (String × V) → W) :
    Except PyError W × Nat :=
  match findFailing rules bound with
  | some k => (.error (.valueError ("Argument `" ++ k ++ "` does not satisfy its rule")), 0)
  | none => (.ok (target bound), 1)

/-- A full `check_args`-wrapped call: bind the supplied arguments against the
target's signature, then validate and call. -/
def check_args_call {V W : Type} (rules : List (String × (V → Bool)))
    (params : List String) (posArgs : List V) (kwargs : List (String × V))
    (target : List (String × V) → W) : Except PyError W × Nat :=
  check_args_invoke rules (bindSupplied params posArgs kwargs) target

/-! ## `memory_limit` (`decorators.py`)

The wrapper reads the current `RLIMIT_AS` pair keeping only the hard limit
(`_, hard = resource.getrlimit(...)`), measures free memory (KiB, scaled by
1024 to bytes), sets the soft limit to `int(free_memory * percentage)` for the
duration of the call, and in the `finally` block sets the limits to
`(int(free_memory), hard)`.  The `percentage` float is embedded as a rational
and Python `int()` on a non-negative number as `Rat.floor`. -/

/-- A process resource limit pair as `resource.getrlimit`/`setrlimit` see it. -/
structure RLimit where
  soft : Int
  hard : Int
  deriving DecidableEq, Repr

/-- `resource.setrlimit` on `RLIMIT_AS`: a request whose soft limit exceeds
its hard limit is rejected with `ValueError`, leaving the current limits
unchanged; otherwise the requested limits are installed and returned.
(`RLIM_INFINITY` is not modelled: limits are finite integers.) -/
def setrlimit (req : RLimit) : Except PyError RLimit :=
  if req.hard < req.soft then
    .error (.valueError "current limit exceeds maximum limit")
  else .ok req

/-- One invocation of a `memory_limit`-wrapped function: whether the target
was reached, the limit installed while it ran (`none` when the first
`setrlimit` already raised), the wrapper's outcome, and the limits in effect
once the wrapper is left.  `fm` is the free memory reported by
`_get_free_memory` (KiB) at call start. -/
structure MemLimitTrace (V : Type) where
  target_ran : Bool
  limit_during : Option RLimit
  result : Except PyError V
  limit_after : RLimit
  deriving Repr

/-- The `memory_limit` wrapper body, with the process limit state explicit.
`_, hard = getrlimit(...)` keeps only the prior hard limit; then
`setrlimit((int(free_memory * percentage), hard))` runs *outside* the `try`
block — if it raises `ValueError` the target never runs and the limits stay
as they were.  Otherwise the target runs; a target `MemoryError` is re-raised
as `MemoryError("Reached memory limit")`, any other outcome passes through,
and the `finally` block runs `setrlimit((int(free_memory), hard))` — whose
own `ValueError`, if any, supersedes the in-flight result and leaves the
during-call limits in place.  Python `int()` truncates toward zero, which on
the non-negative products the wrapper builds is `Int.floor`. -/
def memory_limit_invoke {V : Type} (limits0 : RLimit) (fm : Nat) (percentage : ℚ)
    (target_outcome : Except PyError V) : MemLimitTrace V :=
  let free_memory : Int := (fm : Int) * 1024
  match setrlimit ⟨Int.floor ((free_memory : ℚ) * percentage), limits0.hard⟩ with
  | .error e => ⟨false, none, .error e, limits0⟩
  | .ok during =>
    let result0 : Except PyError V :=
      match target_outcome with
      | .error (.memoryError _) => .error (.memoryError "Reached memory limit")
      | r => r
    match setrlimit ⟨free_memory, limits0.hard⟩ with
    | .error e2 => ⟨true, some during, .error e2, during⟩
    | .ok after => ⟨true, some during, result0, after⟩

/-- Decoration-time validation of `memory_limit`: `percentage` must be a
`float` (`TypeError`), within `[0, 1]` (`ValueError`), and `logging_fn`
callable (`TypeError`).  The float value is embedded as a rational. -/
def memory_limit_validate (percentage_is_float : Bool) (percentage : ℚ)
    (logging_fn_callable : Bool) : Except PyError Unit := do
  if percentage_is_float then pure () else throw (.typeError "`percentage` should be a float")
  if 0 ≤ percentage ∧ percentage ≤ 1 then pure ()
    else throw (.valueError "`percentage` should be between 0 and 1")
  if logging_fn_callable then pure () else throw (.typeError "`logging_fn` should be a callable")

/-! ## `multi_shape_tracker` (`decorators.py`)

The factory's only decoration-time check is that `logging_fn` is callable.
All parsing of `shapes_in`, `shapes_out` and `raise_if_empty` — including
their type validation — happens inside `wrapper`, i.e. on each call of the
wrapped function: `shapes_in` is parsed before the target runs, `shapes_out`
and `raise_if_empty` after.  Shapes are embedded as `List Nat` (the `.shape`
tuple); the logging text is abstracted away (; the tracked name/value pairs
computed for it are reproduced faithfully, errors included). -/

/-- A `.shape` tuple. -/
abbrev Shape := List Nat

/-- An element of a `shapes_in` sequence: a `str`, an `int`, or a value of
some other type. -/
inductive StrOrInt where
  | str (s : String)
  | int (n : Int)
  | other
  deriving DecidableEq, Repr

/-- The `shapes_in` argument as the wrapper's `isinstance` chain sees it. -/
inductive ShapesIn where
  | str (s : String)
  | int (n : Int)
  | seq (xs : List StrOrInt)
  | noneV
  | other
  deriving DecidableEq, Repr

/-- The `shapes_out` argument as the wrapper's `isinstance` chain sees it.
(`"all"` is itself a `Sequence` of non-ints, so it is only matched by the
dedicated equality check, as in the source.) -/
inductive ShapesOut where
  | int (n : Int)
  | seq (xs : List Int)
  | seqOther
  | all
  | noneV
  | other
  deriving DecidableEq, Repr

/-- The `raise_if_empty` argument: `"any"`, `"all"`, `None`, or a value of
some other type. -/
inductive RaiseIfEmpty where
  | any
  | all
  | noneV
  | other
  deriving DecidableEq, Repr

/-- `func_args[k]`: dictionary lookup, `KeyError` when absent. -/
def dictGet (func_args : List (String × Shape)) (k : String) : Except PyError Shape :=
  match func_args.lookup k with
  | some v => .ok v
  | none => .error (.keyError k)

/-- `tuple(func_args.items())[i]`: tuple indexing, `IndexError` out of range. -/
def itemsGet (func_args : List (String × Shape)) (i : Nat) :
    Except PyError (String × Shape) :=
  match func_args.get? i with
  | some p => .ok p
  | none => .error .indexError

/-- `res[i]` on the result tuple, `IndexError` out of range. -/
def tupleGet (res : List Shape) (i : Nat) : Except PyError Shape :=
  match res.get? i with
  | some s => .ok s
  | none => .error .indexError

/-- The wrapper's `shapes_in` parsing, run before the target: the tracked
`(name, value)` pairs (`none` when `shapes_in is None` and tracking is off).
The `isinstance` chain is reproduced branch for branch; a negative `int`
falls through every branch to the final `TypeError`, as in the source. -/
def parseShapesIn (shapes_in : ShapesIn) (func_args : List (String × Shape)) :
    Except PyError (Option (List (String × Shape))) :=
  match shapes_in with
  | .str s => (dictGet func_args s).map (fun v => some [(s, v)])
  | .int n =>
    if 0 ≤ n then (itemsGet func_args n.toNat).map (fun p => some [p])
    else .error (.typeError "`shapes_in` must be either a str, a positive int, a sequence of str, a sequence of positive int or None")
  | .seq xs =>
    if xs.all (fun x => match x with | .str _ => true | _ => false) then
      (xs.filterMap (fun x => match x with | .str s => some s | _ => none)
        |>.mapM (fun s => (dictGet func_args s).map (fun v => (s, v)))).map some
    else if xs.all (fun x => match x with | .int n => 0 ≤ n | _ => false) then
      (xs.filterMap (fun x => match x with | .int n => some n.toNat | _ => none)
        |>.mapM (itemsGet func_args)).map some
    else .error (.typeError "`shapes_in` values must all be str or positive int")
  | .noneV => .ok none
  | .other => .error (.typeError "`shapes_in` must be either a str, a positive int, a sequence of str, a sequence of positive int or None")

/-- The wrapper's `shapes_out` parsing, run after the target on the result
tuple: the tracked output shapes (`none` when `shapes_out is None`). -/
def parseShapesOut (shapes_out : ShapesOut) (res : List Shape) :
    Except PyError (Option (List Shape)) :=
  match shapes_out with
  | .int n =>
    if 0 ≤ n then (tupleGet res n.toNat).map (fun s => some [s])
    else .error (.typeError "`shapes_out` must be positive int, sequence of positive int, all or None")
  | .seq xs =>
    if xs.all (fun n => 0 ≤ n) then
      ((xs.map Int.toNat).mapM (tupleGet res)).map some
    else .error (.typeError "`shapes_out` must be positive int, sequence of positive int, all or None")
  | .seqOther => .error (.typeError "`shapes_out` must be positive int, sequence of positive int, all or None")
  | .all => .ok (some res)
  | .noneV => .ok none
  | .other => .error (.typeError "`shapes_out` must be positive int, sequence of positive int, all or None")

/-- `any(x[0] == 0 for x in shapes)` with Python's left-to-right, lazy
evaluation: `x[0]` on an empty shape raises `IndexError`. -/
def anyHeadZero : List Shape → Except PyError Bool
  | [] => .ok false
  | [] :: _ => .error .indexError
  | (d :: _) :: rest => if d = 0 then .ok true else anyHeadZero rest

/-- `all(x[0] == 0 for x in shapes)`, lazy like `anyHeadZero`. -/
def allHeadZero : List Shape → Except PyError Bool
  | [] => .ok true
  | [] :: _ => .error .indexError
  | (d :: _) :: rest => if d = 0 then allHeadZero rest else .ok false

/-- The `multi_shape_tracker` configuration (the factory's keyword options;
`logging_fn` is embedded by whether it is callable). -/
structure MstConfig where
  shapes_in : ShapesIn
  shapes_out : ShapesOut
  raise_if_empty : RaiseIfEmpty
  logging_fn_callable : Bool
  deriving DecidableEq, Repr

/-- A `multi_shape_tracker`-wrapped function: just the captured
configuration; everything else happens per call. -/
structure MstWrapped where
  cfg : MstConfig
  deriving DecidableEq, Repr

/-- Decoration time of `multi_shape_tracker` applied to a target: the only
check is `callable(logging_fn)`; on success the wrapper closure is built and
returned. -/
def multi_shape_tracker (cfg : MstConfig) : Except PyError MstWrapped :=
  if cfg.logging_fn_callable then .ok ⟨cfg⟩
  else .error (.typeError "`logging_fn` should be a callable")

/-- One call of a `multi_shape_tracker`-wrapped function.  `func_args` is the
bound-argument mapping of the call, `res` the tuple of shaped results the
target returns (the target is assumed to return normally; a single non-tuple
result is the one-element list).  Parse `shapes_in`, run the target, parse
`shapes_out`, then apply the `raise_if_empty` strategy — which is forced to
`None` when `shapes_out is None`, and whose own type check sits in the final
`else` branch, after the `"any"`/`"all"` cases. -/
def MstWrapped.call (w : MstWrapped) (func_args : List (String × Shape))
    (res : List Shape) : Except PyError (List Shape) := do
  let _tracked ← parseShapesIn w.cfg.shapes_in func_args
  let shapesOut? ← parseShapesOut w.cfg.shapes_out res
  match shapesOut? with
  | none => pure res
  | some shapes =>
    match w.cfg.raise_if_empty with
    | .noneV => pure res
    | .any =>
      if (← anyHeadZero shapes) then
        throw (.emptyShapeError "At least one result is empty")
      else pure res
    | .all =>
      if (← allHeadZero shapes) then
        throw (.emptyShapeError "All results are empty")
      else pure res
    | .other => throw (.typeError "raise_if_empty must be either any, all or None")

/-! ## Supporting lemmas -/

/-- When every attempt fails, the retry loop entered at `attempt` with
`n_tries = attempt + d + 1` makes the remaining `d + 1` invocations and
re-raises the error of the last one. -/
theorem retry_run_all_fail {E V : Type} (attempts : Nat → Except E V) (e : Nat → E)
    (h : ∀ i, attempts i = .error (e i)) :
    ∀ (d attempt : Nat),
      retry_run attempts (attempt + d + 1) attempt = (some (.error (e (attempt + d))), d + 1) := by
  intro d
  induction d with
  | zero =>
    intro attempt
    unfold retry_run
    simp [h attempt]
  | succ n ih =>
    intro attempt
    unfold retry_run
    rw [h attempt]
    have h1 : attempt < attempt + (n + 1) + 1 := by omega
    have h2 : ¬ (attempt + 1 = attempt + (n + 1) + 1) := by omega
    simp only [h1, if_true, h2, if_false]
    have h3 : attempt + (n + 1) + 1 = (attempt + 1) + n + 1 := by omega
    rw [h3, ih (attempt + 1)]
    have h4 : attempt + 1 + n = attempt + (n + 1) := by omega
    simp [h4]

/-- When the attempts at indices `attempt, …, attempt + c - 1` fail and
attempt `attempt + c` succeeds with `v` (all within the bound), the retry
loop entered at `attempt` makes `c + 1` invocations and returns `v`. -/
theorem retry_run_first_success {E V : Type} (attempts : Nat → Except E V)
    (n_tries : Nat) (v : V) :
    ∀ (c attempt : Nat), attempt + c < n_tries →
      (∀ i, attempt ≤ i → i < attempt + c → ∃ er, attempts i = .error er) →
      attempts (attempt + c) = .ok v →
      retry_run attempts n_tries attempt = (some (.ok v), c + 1) := by
  intro c
  induction c with
  | zero =>
    intro attempt hlt _ hok
    unfold retry_run
    simp only [Nat.add_zero] at hlt hok
    simp [hlt, hok]
  | succ n ih =>
    intro attempt hlt herr hok
    obtain ⟨er, her⟩ := herr attempt (Nat.le_refl _) (by omega)
    unfold retry_run
    have h1 : attempt < n_tries := by omega
    have h2 : ¬ (attempt + 1 = n_tries) := by omega
    simp only [h1, if_true, her, h2, if_false]
    have h3 : attempt + 1 + n = attempt + (n + 1) := by omega
    rw [ih (attempt + 1) (by omega) (fun i hi1 hi2 => herr i (by omega) (by omega))
      (by rw [h3]; exact hok)]

/-! ## Theorems -/

/-- C1: for every decorator factory `f`, target `t` and keyword configuration
`cfg`, the dispatcher satisfies both calling-convention contracts: bare
application `dispatch(f)(t)` returns `f(t)` directly (configuration at the
factory's declared defaults, which the factory itself fills from an empty
keyword dictionary); configured application `dispatch(f)(**cfg)` returns a
deferred decorator which, applied to `t`, yields `f(t, **cfg)`; and the bare
result coincides with the default-configured deferred application on the same
target. -/
theorem dispatch_calling_conventions {U β : Type}
    (f : List (Option U) → KW U → β) (t : U) (cfg : KW U) :
    check_parens f [some t] emptyKw = .ret (f [some t] emptyKw)
    ∧ (check_parens f [] cfg).applyTo t = some (f [some t] cfg)
    ∧ (check_parens f [some t] emptyKw).result? = (check_parens f [] emptyKw).applyTo t :=
  ⟨rfl, rfl, rfl⟩

/-- C2 counterexample: with one positional configuration argument (`wrapper`
called as `wrapped_factory(None, 1)` and the deferred decorator then invoked
on the target `2`), the factory receives the positional tuple `(1, 2)` —
the target is appended *after* the stored configuration argument by
`functools.partial`, not passed first as the claim states (`(2, 1)`). -/
theorem deferred_target_not_first :
    (check_parens (fun (args : List (Option Nat)) (_ : KW Nat) => args)
        [none, some 1] emptyKw).applyTo 2
      ≠ some ((fun (args : List (Option Nat)) (_ : KW Nat) => args)
        [some 2, some 1] emptyKw) := by
  decide

/-- C2 (amended): calling the dispatched factory with the target omitted
returns a deferred decorator that, when later invoked on a target `t`,
appends `t` after the stored positional configuration arguments — yielding
`f(*config_args, t, **config_kwargs)`; in particular, when configuration is
supplied by keyword only (no positional configuration arguments), `t` is the
factory's first positional argument, yielding `f(t, **config_kwargs)`. -/
theorem deferred_decorator_application {U β : Type}
    (f : List (Option U) → KW U → β) (config_args : List (Option U))
    (kw : KW U) (t : U) :
    (check_parens f (none :: config_args) kw).applyTo t
        = some (f (config_args ++ [some t]) kw)
    ∧ (check_parens f [] kw).applyTo t = some (f [some t] kw) :=
  ⟨rfl, rfl⟩

/-- C3: the two revisions of the dispatcher agree — for every factory and
every argument list (positional tuple and keyword dictionary),
`check_parens` and `add_partial` dispatch to the very same result. -/
theorem dispatch_revisions_agree {U β : Type}
    (f : List (Option U) → KW U → β) (args : List (Option U)) (kw : KW U) :
    check_parens f args kw = add_partial f args kw :=
  rfl

/-- C6: for `retry` with `n_tries = k ≥ 1` (the validated range): a target
failing on every attempt is invoked exactly `k` times and the error finally
raised is the one from the `k`-th attempt; a target first succeeding on
attempt `j ≤ k` (`j ≥ 1`, attempts before `j` failing) is invoked exactly `j`
times and the wrapper returns that attempt's result.  (Invocations are
0-indexed in the embedding: the `j`-th attempt is `attempts (j - 1)`.) -/
theorem retry_contract {E V : Type} (attempts : Nat → Except E V) (k : Nat)
    (hk : 1 ≤ k) :
    (∀ e : Nat → E, (∀ i, attempts i = .error (e i)) →
      retry_call attempts k = (some (.error (e (k - 1))), k))
    ∧ (∀ (j : Nat) (v : V), 1 ≤ j → j ≤ k →
        (∀ i, i < j - 1 → ∃ er, attempts i = .error er) →
        attempts (j - 1) = .ok v →
        retry_call attempts k = (some (.ok v), j)) := by
  constructor
  · intro e he
    have h := retry_run_all_fail attempts e he (k - 1) 0
    have hk1 : 0 + (k - 1) + 1 = k := by omega
    rw [hk1] at h
    unfold retry_call
    rw [h]
    have : 0 + (k - 1) = k - 1 := by omega
    rw [this]
    have : k - 1 + 1 = k := by omega
    rw [this]
  · intro j v hj hjk herr hok
    have h := retry_run_first_success attempts k v (j - 1) 0 (by omega)
      (fun i hi1 hi2 => herr i (by omega)) (by simpa using hok)
    unfold retry_call
    rw [h]
    have : j - 1 + 1 = j := by omega
    rw [this]

/-- C6 witness: with `n_tries = 2` and a target whose first invocation fails
with error `7` and whose second returns `42`, the wrapper invokes the target
twice and returns `42`. -/
theorem retry_contract_witness :
    retry_call (fun i => if i = 0 then (Except.error 7 : Except Nat Nat) else .ok 42) 2
      = (some (.ok 42), 2) :=
  (retry_contract (fun i => if i = 0 then (Except.error 7 : Except Nat Nat) else .ok 42) 2
      (by decide)).2 2 42 (by decide) (by decide)
    (fun i hi => ⟨7, by have : i = 0 := by omega
                        simp [this]⟩)
    rfl

/-- C7: `catch` configured with `return_on_exception = v`: every target
exception makes the wrapper return `v`, never raise (whatever
`raise_on_exception` holds); and with neither option configured (both at the
`None` default) the target's original exception propagates out unchanged —
the very same error value, hence unchanged type and message. -/
theorem catch_contract {E V : Type} (v : V) (raise_opt : Option E) (e : E) :
    catch_invoke (some v) raise_opt (.error e) = .ok v
    ∧ catch_invoke (none : Option V) (none : Option E) (.error e) = .error e :=
  ⟨rfl, rfl⟩

/-- The counter after a run of invocations grows by exactly their number. -/
theorem call_counter_after_calls {E V : Type} (outcomes : List (Except E V)) :
    ∀ st : CallCounterState,
      (call_counter_after st outcomes).calls = st.calls + outcomes.length := by
  induction outcomes with
  | nil => intro st; simp [call_counter_after]
  | cons o rest ih =>
    intro st
    have hstep : call_counter_after st (o :: rest)
        = call_counter_after ⟨st.calls + 1⟩ rest := rfl
    rw [hstep, ih ⟨st.calls + 1⟩]
    simp
    omega

/-- C8: for every seed `s` and every `n ≥ 0`: after `n` invocations of a
`call_counter`-wrapped function created with `seed = s` (whatever each
invocation's target outcome), the wrapper's `_calls` attribute equals
`s + n`; the counter is initialized to `s` before any call and incremented by
exactly one on each invocation. -/
theorem call_counter_invariant {E V : Type} (s : Int)
    (outcomes : List (Except E V)) :
    (call_counter_after (call_counter_init s) outcomes).calls
        = s + outcomes.length
    ∧ (call_counter_init s).calls = s
    ∧ ∀ (st : CallCounterState) (o : Except E V),
        (call_counter_invoke st o).1.calls = st.calls + 1 := by
  refine ⟨?_, rfl, fun st o => rfl⟩
  rw [call_counter_after_calls]
  rfl

/-- If some bound argument fails its rule, the wrapper's scan reports a
failing name. -/
theorem findFailing_isSome {V : Type} (rules : List (String × (V → Bool))) :
    ∀ (bound : List (String × V)) (a : String) (pred : V → Bool) (v : V),
      rules.lookup a = some pred → (a, v) ∈ bound → pred v = false →
      (findFailing rules bound).isSome = true := by
  intro bound
  induction bound with
  | nil => intro a pred v _ hm _; simp at hm
  | cons p rest ih =>
    intro a pred v hr hm hf
    rcases List.mem_cons.mp hm with heq | hmem
    · rw [← heq]
      unfold findFailing
      simp [hr, hf]
    · unfold findFailing
      rcases hl : rules.lookup p.1 with _ | rule
      · exact ih a pred v hr hmem hf
      · rcases hrv : rule p.2 with _ | _
        · simp [hrv]
        · simp only [hrv, if_true]
          exact ih a pred v hr hmem hf

/-- C9: for `check_args` configured with a rule for parameter `a`, every call
that explicitly supplies a value for `a` failing that rule raises a
`ValueError` naming a failing argument before the target executes — the
target invocation count stays at zero. -/
theorem check_args_blocks_failing_argument {V W : Type}
    (rules : List (String × (V → Bool))) (params : List String)
    (posArgs : List V) (kwargs : List (String × V))
    (target : List (String × V) → W) (a : String) (pred : V → Bool) (v : V)
    (hrule : rules.lookup a = some pred)
    (hsupplied : (a, v) ∈ bindSupplied params posArgs kwargs)
    (hfail : pred v = false) :
    (check_args_call rules params posArgs kwargs target).2 = 0
    ∧ ∃ k, (check_args_call rules params posArgs kwargs target).1
        = .error (.valueError ("Argument `" ++ k ++ "` does not satisfy its rule")) := by
  have hsome := findFailing_isSome rules (bindSupplied params posArgs kwargs)
    a pred v hrule hsupplied hfail
  rcases hk : findFailing rules (bindSupplied params posArgs kwargs) with _ | k
  · rw [hk] at hsome; simp at hsome
  · constructor
    · simp [check_args_call, check_args_invoke, hk]
    · exact ⟨k, by simp [check_args_call, check_args_invoke, hk]⟩

/-- C9 witness: rule `0 < a` on signature `(a, b)`, called as `f(-2, 2)`:
the call errors and the target does not run. -/
theorem check_args_blocks_failing_argument_witness :
    (check_args_call [("a", fun v : Int => decide (0 < v))] ["a", "b"]
        [(-2 : Int), 2] [] (fun _ => (0 : Int))).2 = 0 :=
  (check_args_blocks_failing_argument [("a", fun v : Int => decide (0 < v))]
    ["a", "b"] [(-2 : Int), 2] [] (fun _ => (0 : Int)) "a"
    (fun v : Int => decide (0 < v)) (-2) rfl (by decide) (by decide)).1

/-- A rule whose name is bound to no supplied argument never changes the
wrapper's scan. -/
theorem findFailing_cons_notmem {V : Type} (a : String) (pred : V → Bool)
    (rules : List (String × (V → Bool))) :
    ∀ bound : List (String × V), a ∉ bound.map Prod.fst →
      findFailing ((a, pred) :: rules) bound = findFailing rules bound := by
  intro bound
  induction bound with
  | nil => intro _; rfl
  | cons p rest ih =>
    intro hnot
    simp only [List.map_cons, List.mem_cons] at hnot
    push_neg at hnot
    obtain ⟨hne, hrest⟩ := hnot
    have hbeq : (p.1 == a) = false := beq_eq_false_iff_ne.mpr (Ne.symm hne)
    unfold findFailing
    simp only [List.lookup, hbeq]
    rcases hl : rules.lookup p.1 with _ | rule
    · exact ih hrest
    · show (if rule p.2 = true then findFailing ((a, pred) :: rules) rest else some p.1)
          = (if rule p.2 = true then findFailing rules rest else some p.1)
      rw [ih hrest]

/-- When every supplied argument passes its rule, the scan finds nothing. -/
theorem findFailing_none_of_all_pass {V : Type}
    (rules : List (String × (V → Bool))) :
    ∀ bound : List (String × V),
      (∀ k v rule, (k, v) ∈ bound → rules.lookup k = some rule → rule v = true) →
      findFailing rules bound = none := by
  intro bound
  induction bound with
  | nil => intro _; rfl
  | cons p rest ih =>
    intro hall
    unfold findFailing
    rcases hl : rules.lookup p.1 with _ | rule
    · exact ih fun k v r hm hr => hall k v r (List.mem_cons_of_mem _ hm) hr
    · have hp : (p.1, p.2) ∈ p :: rest := by
        have : p = (p.1, p.2) := rfl
        rw [← this]
        exact List.mem_cons_self _ _
      show (if rule p.2 = true then findFailing rules rest else some p.1) = none
      rw [hall p.1 p.2 rule hp hl]
      simp only [if_true]
      exact ih fun k v r hm hr => hall k v r (List.mem_cons_of_mem _ hm) hr

/-- C10: for a `check_args`-decorated function, a parameter with a rule that
is not explicitly supplied in a call (its declared default is used) has its
rule ignored entirely — whatever predicate it is, even one rejecting the
default — and, likewise, a rule whose name matches no supplied argument is
silently ignored; if every supplied argument passes its rule the target
executes (invocation count one). -/
theorem check_args_default_rules_ignored {V W : Type}
    (rules : List (String × (V → Bool))) (params : List String)
    (posArgs : List V) (kwargs : List (String × V))
    (target : List (String × V) → W) (a : String) (pred : V → Bool)
    (hnot : a ∉ (bindSupplied params posArgs kwargs).map Prod.fst) :
    check_args_call ((a, pred) :: rules) params posArgs kwargs target
        = check_args_call rules params posArgs kwargs target
    ∧ ((∀ k v rule, (k, v) ∈ bindSupplied params posArgs kwargs →
          rules.lookup k = some rule → rule v = true) →
        check_args_call rules params posArgs kwargs target
          = (.ok (target (bindSupplied params posArgs kwargs)), 1)) := by
  constructor
  · unfold check_args_call check_args_invoke
    rw [findFailing_cons_notmem a pred rules _ hnot]
  · intro hall
    unfold check_args_call check_args_invoke
    rw [findFailing_none_of_all_pass rules _ hall]

/-- C10 witness: signature `(x, a)`, call `f(5)` supplying only `x`;
the rule on the unsupplied `a` rejects everything, yet the target runs and
the call returns its value. -/
theorem check_args_default_rules_ignored_witness :
    check_args_call
        [("a", (fun _ => false : Int → Bool)), ("x", fun v : Int => decide (0 < v))]
        ["x", "a"] [(5 : Int)] [] (fun _ => (0 : Int))
      = (.ok 0, 1) := by
  have h := check_args_default_rules_ignored
    [("x", fun v : Int => decide (0 < v))] ["x", "a"] [(5 : Int)] []
    (fun _ => (0 : Int)) "a" (fun _ => false) (by decide)
  rw [h.1]
  refine h.2 ?_
  intro k v rule hm hr
  simp [bindSupplied] at hm
  obtain ⟨hk, hv⟩ := hm
  subst hk
  subst hv
  simp [List.lookup] at hr
  rw [← hr]
  decide

/-- C4 counterexample: `multi_shape_tracker` applied to a target with
`shapes_in` of an invalid type (e.g. the float `1.1`) raises nothing at
decoration time — the wrapper is built and returned — and the `TypeError`
surfaces only on the first call of the wrapped function. -/
theorem multi_shape_tracker_defers_validation :
    multi_shape_tracker ⟨ShapesIn.other, .all, .any, true⟩
        = .ok ⟨⟨ShapesIn.other, .all, .any, true⟩⟩
    ∧ MstWrapped.call ⟨⟨ShapesIn.other, .all, .any, true⟩⟩ [("a", [3])] [[3]]
        = .error (.typeError "`shapes_in` must be either a str, a positive int, a sequence of str, a sequence of positive int or None") :=
  ⟨rfl, rfl⟩

/-- C4 (amended): `retry` does validate its configuration eagerly —
a non-positive `n_tries` raises `ValueError` at decoration time — but
`multi_shape_tracker` does not: its only decoration-time check is that
`logging_fn` is callable (decoration succeeds for any other configuration
values), and an invalid `shapes_in` is rejected with `TypeError` only when
the wrapped function is called. -/
theorem config_validation_timing :
    (∀ (delay : PyNum) (lf : Bool) (n : Int), n < 1 →
      retry_validate (.int n) delay lf
        = .error (.valueError "`n_tries` should be a positive integer"))
    ∧ (∀ cfg : MstConfig, cfg.logging_fn_callable = true →
        multi_shape_tracker cfg = .ok ⟨cfg⟩)
    ∧ (∀ (cfg : MstConfig) (func_args : List (String × Shape)) (res : List Shape),
        cfg.shapes_in = ShapesIn.other →
        MstWrapped.call ⟨cfg⟩ func_args res
          = .error (.typeError "`shapes_in` must be either a str, a positive int, a sequence of str, a sequence of positive int or None")) := by
  refine ⟨?_, ?_, ?_⟩
  · intro delay lf n hn
    unfold retry_validate
    simp only [if_pos hn]
    rfl
  · intro cfg hlf
    unfold multi_shape_tracker
    rw [hlf]
    rfl
  · intro cfg func_args res hsi
    unfold MstWrapped.call
    rw [hsi]
    rfl

/-- C4 witness: `retry` with `n_tries = 0` raises at decoration time;
`multi_shape_tracker` with float `shapes_in` decorates fine and its wrapped
function raises `TypeError` on its first call. -/
theorem config_validation_timing_witness :
    retry_validate (.int 0) (.int 0) true
        = .error (.valueError "`n_tries` should be a positive integer")
    ∧ multi_shape_tracker ⟨ShapesIn.noneV, .all, .any, true⟩
        = .ok ⟨⟨ShapesIn.noneV, .all, .any, true⟩⟩
    ∧ MstWrapped.call ⟨⟨ShapesIn.other, .noneV, .noneV, true⟩⟩ [] []
        = .error (.typeError "`shapes_in` must be either a str, a positive int, a sequence of str, a sequence of positive int or None") :=
  ⟨(config_validation_timing).1 (.int 0) true 0 (by decide),
   (config_validation_timing).2.1 ⟨ShapesIn.noneV, .all, .any, true⟩ rfl,
   (config_validation_timing).2.2 ⟨ShapesIn.other, .noneV, .noneV, true⟩ [] [] rfl⟩

/-- C5 counterexample: with a prior soft limit of `5` bytes, hard limit
`2048` (large enough that both `setrlimit` requests are admissible),
measured free memory `1` KiB and `percentage = 1`, the wrapped call runs the
target and completes, yet the limit afterwards is `(1024, 2048)` — the prior
soft limit `5` is not restored. -/
theorem memory_limit_not_restored :
    (memory_limit_invoke ⟨5, 2048⟩ 1 1 (.ok (0 : Nat))).limit_after ≠ ⟨5, 2048⟩
    ∧ (memory_limit_invoke ⟨5, 2048⟩ 1 1 (.ok (0 : Nat))).target_ran = true
    ∧ (memory_limit_invoke ⟨5, 2048⟩ 1 1 (.ok (0 : Nat))).result = .ok 0 := by
  have hval : memory_limit_invoke ⟨5, 2048⟩ 1 1 (.ok (0 : Nat))
      = ⟨true, some ⟨1024, 2048⟩, .ok 0, ⟨1024, 2048⟩⟩ := by
    simp only [memory_limit_invoke, setrlimit]
    norm_num
  rw [hval]
  refine ⟨?_, rfl, rfl⟩
  simp

/-- C5 (amended): for every `memory_limit`-wrapped call whose `setrlimit`
requests are admissible — `percentage` within the validated range `[0, 1]`
and the measured free memory (in bytes) no larger than the prior hard limit —
after the call completes (whether the target returned or raised) the hard
address-space limit equals the prior hard limit, but the soft limit is set to
the free memory measured at the start of the call, not restored to the prior
soft limit. -/
theorem memory_limit_after_limits {V : Type} (limits0 : RLimit) (fm : Nat)
    (p : ℚ) (target_outcome : Except PyError V)
    (hp0 : 0 ≤ p) (hp1 : p ≤ 1)
    (hh : (fm : Int) * 1024 ≤ limits0.hard) :
    (memory_limit_invoke limits0 fm p target_outcome).limit_after
        = ⟨(fm : Int) * 1024, limits0.hard⟩
    ∧ (memory_limit_invoke limits0 fm p target_outcome).limit_after.hard
        = limits0.hard := by
  have hq : (0 : ℚ) ≤ (((fm : Int) * 1024 : Int) : ℚ) := by positivity
  have hfloor : Int.floor ((((fm : Int) * 1024 : Int) : ℚ) * p) ≤ (fm : Int) * 1024 := by
    calc Int.floor ((((fm : Int) * 1024 : Int) : ℚ) * p)
        ≤ Int.floor ((((fm : Int) * 1024 : Int) : ℚ)) := by
          apply Int.floor_le_floor
          nlinarith
      _ = (fm : Int) * 1024 := Int.floor_intCast _
  have h1 : ¬ (limits0.hard < Int.floor ((((fm : Int) * 1024 : Int) : ℚ) * p)) := by omega
  have h2 : ¬ (limits0.hard < (fm : Int) * 1024) := by omega
  unfold memory_limit_invoke setrlimit
  simp only [if_neg h1, if_neg h2]
  constructor <;> trivial

/-- C5 witness: prior limits `(5, 2048)`, free memory `1` KiB,
`percentage = 1`, target returning `0`: the limits afterwards are
`(1024, 2048)`. -/
theorem memory_limit_after_limits_witness :
    (memory_limit_invoke ⟨5, 2048⟩ 1 1 (.ok (0 : Nat))).limit_after = ⟨1024, 2048⟩ :=
  (memory_limit_after_limits ⟨5, 2048⟩ 1 1 (.ok (0 : Nat))
    (by norm_num) (by norm_num) (by norm_num)).1

end Deczoo
